import Mathlib

/-!
Shallow embedding of the SRN scope subsystem of the repository
(src/lightrag/scope/{srn.py, context.py, migration.py}).

Strings are modelled as `List Char`.  Python's `str.lower()` is modelled on
the ASCII range (`charLower`), `str.strip()` strips the ASCII whitespace
characters, and the `unicodedata.normalize('NFC', ...)` step of
`SRNParser.canonicalize` is modelled as the identity (it is the identity on
every ASCII string, and all identifier alphabets of the SRN grammar are
ASCII).  Python `None`-or-string fields become `Option (List Char)`, and
Python truthiness on them (`if self.project:`) is `truthy` below: a value is
truthy iff it is present and non-empty.
-/

/-- Character list of a string literal (helper for writing `List Char` data). -/
def cs (s : String) : List Char := s.data

/-- ASCII whitespace, modelling Python's default `str.strip` character class. -/
def isWsChar (c : Char) : Bool :=
  c = ' ' || c = '\t' || c = '\n' || c = '\r'

/-- Python `str.lower`, modelled on the ASCII range. -/
def charLower (c : Char) : Char :=
  if 'A' ≤ c ∧ c ≤ 'Z' then Char.ofNat (c.toNat + 32) else c

/-- Python `str.strip`: drop whitespace from both ends. -/
def pyStrip (l : List Char) : List Char :=
  ((l.dropWhile isWsChar).reverse.dropWhile isWsChar).reverse

/-- Character class of the regex `[0-9]` (Python `\d`, ASCII fragment). -/
def isDigitChar (c : Char) : Bool := decide ('0' ≤ c ∧ c ≤ '9')

/-- Character class of the regex `[a-f0-9]` (workspace segment). -/
def isHexLowerChar (c : Char) : Bool :=
  decide (('a' ≤ c ∧ c ≤ 'f') ∨ ('0' ≤ c ∧ c ≤ '9'))

/-- Character class of the regex `[a-z0-9_-]` (identifier segments). -/
def isIdentChar (c : Char) : Bool :=
  decide (('a' ≤ c ∧ c ≤ 'z') ∨ ('0' ≤ c ∧ c ≤ '9') ∨ c = '_' ∨ c = '-')

/-- The regex `[a-z0-9_-]{1,63}` (also `SRNValidator.IDENTIFIER_PATTERN`). -/
def validIdent (l : List Char) : Bool :=
  decide (1 ≤ l.length) && decide (l.length ≤ 63) && l.all isIdentChar

/-- The regex `[a-f0-9]{32}` (also `SRNValidator.WORKSPACE_PATTERN`). -/
def isWs32 (l : List Char) : Bool :=
  decide (l.length = 32) && l.all isHexLowerChar

/-- Splitting a character list at `'.'` separators.  The SRN regex of
`SRNParser.SRN_PATTERN` is anchored and none of its character classes or
literal fragments contains a dot, so a match decomposes the input uniquely
into its dot-separated segments; the parser embedding below works on this
segment list. -/
def splitDot : List Char → List (List Char)
  | [] => [[]]
  | c :: rest =>
    match splitDot rest with
    | [] => [[c]]
    | s :: ss => if c = '.' then [] :: s :: ss else (c :: s) :: ss

/-- Joining segments with `'.'`; inverse of `splitDot`. -/
def joinDot : List (List Char) → List Char
  | [] => []
  | [s] => s
  | s :: ss => s ++ '.' :: joinDot ss

theorem splitDot_ne_nil (l : List Char) : splitDot l ≠ [] := by
  cases l with
  | nil => simp [splitDot]
  | cons c rest =>
    simp only [splitDot]
    cases splitDot rest with
    | nil => simp
    | cons s ss =>
      by_cases h : c = '.' <;> simp [h]

theorem joinDot_splitDot (l : List Char) : joinDot (splitDot l) = l := by
  induction l with
  | nil => simp [splitDot, joinDot]
  | cons c rest ih =>
    simp only [splitDot]
    cases hs : splitDot rest with
    | nil => exact absurd hs (splitDot_ne_nil rest)
    | cons s ss =>
      rw [hs] at ih
      by_cases h : c = '.'
      · subst h
        simp only [if_pos rfl]
        cases ss with
        | nil => simp_all [joinDot]
        | cons s2 ss2 => simp_all [joinDot]
      · simp only [if_neg h]
        cases ss with
        | nil => simp_all [joinDot]
        | cons s2 ss2 => simp_all [joinDot]

/-- Error taxonomy of src/lightrag/scope/exceptions.py, restricted to the
errors raised by the parser (src/lightrag/scope/srn.py). -/
inductive SRNError where
  | invalidFormat
  | invalidWorkspace
  | invalidSubjectType
  | invalidIdentifier
deriving DecidableEq, Repr

/-- `SubjectType` enum of src/lightrag/scope/srn.py. -/
inductive SubjectType where
  | user
  | agent
  | workspace
  | contact
  | project
  | system
deriving DecidableEq, Repr

/-- `.value` of a `SubjectType` member. -/
def SubjectType.value : SubjectType → List Char
  | .user => cs "user"
  | .agent => cs "agent"
  | .workspace => cs "workspace"
  | .contact => cs "contact"
  | .project => cs "project"
  | .system => cs "system"

/-- The enum constructor `SubjectType(s)`: `some` member with that value,
`none` when Python would raise `ValueError`. -/
def SubjectType.ofString (s : List Char) : Option SubjectType :=
  if s = cs "user" then some .user
  else if s = cs "agent" then some .agent
  else if s = cs "workspace" then some .workspace
  else if s = cs "contact" then some .contact
  else if s = cs "project" then some .project
  else if s = cs "system" then some .system
  else none

theorem SubjectType.value_ofString (s : List Char) (t : SubjectType)
    (h : SubjectType.ofString s = some t) : t.value = s := by
  unfold SubjectType.ofString at h
  repeat' split at h
  all_goals try simp only [Option.some.injEq] at h
  all_goals try cases h
  all_goals simp_all [SubjectType.value]

/-- `SRNComponents` dataclass of src/lightrag/scope/srn.py. -/
structure SRNComponents where
  version : List Char
  workspace : List Char
  subject_type : SubjectType
  subject_id : List Char
  project : Option (List Char) := none
  thread : Option (List Char) := none
  topic : Option (List Char) := none
deriving DecidableEq, Repr

/-- Python truthiness of a `None`-or-string value: present and non-empty. -/
def truthy : Option (List Char) → Bool
  | none => false
  | some l => !l.isEmpty

/-- `SRNParser.canonicalize`: reject the empty string, NFC-normalize
(identity in this model), lowercase, strip, reject if empty afterwards. -/
def canonicalize (s : List Char) : Except SRNError (List Char) :=
  if s.isEmpty then .error .invalidFormat
  else
    let c := pyStrip (s.map charLower)
    if c.isEmpty then .error .invalidFormat else .ok c

/-- One optional group `(?:\.<pre>(?P<g>[a-z0-9_-]{1,63}))?` of the SRN
regex, acting on the remaining dot-separated segments: consume the next
segment when it carries the literal prefix `pre` (failing the whole match if
its remainder is not a valid identifier — no other group can consume a
segment with this prefix, so the regex cannot backtrack into a successful
match), leave the segment stream unchanged otherwise. -/
def takeOpt (pre : List Char) (segs : List (List Char)) :
    Option (Option (List Char) × List (List Char)) :=
  match segs with
  | [] => some (none, [])
  | seg :: restSegs =>
    if pre.isPrefixOf seg then
      let idp := seg.drop pre.length
      if validIdent idp then some (some idp, restSegs) else none
    else some (none, segs)

/-- The optional tail `(?:\.proj_..)?(?:\.thr_..)?(?:\.top_..)?$` of
`SRNParser.SRN_PATTERN`: each of the three groups is independently optional
(the pattern itself does not force `thr_` to come with `proj_`, nor `top_`
with `thr_`), and nothing may remain after them. -/
def matchOpts (segs : List (List Char)) :
    Option (Option (List Char) × Option (List Char) × Option (List Char)) :=
  match takeOpt (cs "proj_") segs with
  | none => none
  | some (p, s1) =>
    match takeOpt (cs "thr_") s1 with
    | none => none
    | some (t, s2) =>
      match takeOpt (cs "top_") s2 with
      | none => none
      | some (o, s3) => if s3.isEmpty then some (p, t, o) else none

/-- Named groups of a successful `SRN_PATTERN` match. -/
structure SRNGroups where
  version : List Char
  workspace : List Char
  subjectType : List Char
  subjectId : List Char
  project : Option (List Char)
  thread : Option (List Char)
  topic : Option (List Char)

/-- Anchored match of `SRNParser.SRN_PATTERN` against a canonicalized
string, carried out on its dot-separated segments (see `splitDot`):
`^(?P<version>\d+)\.(?P<workspace>[a-f0-9]{32})\.`
`(?P<subject_type>user|agent|workspace|contact|project|system)\.`
`(?P<subject_id>[a-z0-9_-]{1,63})` followed by the optional tail. -/
def srnMatch (c : List Char) : Option SRNGroups :=
  match splitDot c with
  | v :: ws :: st :: sid :: rest =>
    if (!v.isEmpty && v.all isDigitChar) && isWs32 ws
        && (SubjectType.ofString st).isSome && validIdent sid then
      match matchOpts rest with
      | some (p, t, o) => some ⟨v, ws, st, sid, p, t, o⟩
      | none => none
    else none
  | _ => none

/-- `SRNParser.parse`: canonicalize, match the pattern, then run the
validators in source order (`validate_version`, `validate_workspace_uuid`,
`validate_subject_type`, `validate_identifier` on subject_id and on each
present optional group — after a pattern match only the version check can
still fail) and build the `SRNComponents`. -/
def parse (s : List Char) : Except SRNError SRNComponents :=
  match canonicalize s with
  | .error e => .error e
  | .ok c =>
    match srnMatch c with
    | none => .error .invalidFormat
    | some g =>
      if g.version ≠ cs "1" then .error .invalidFormat
      else if !isWs32 g.workspace then .error .invalidWorkspace
      else
        match SubjectType.ofString g.subjectType with
        | none => .error .invalidSubjectType
        | some sty =>
          if !validIdent g.subjectId then .error .invalidIdentifier
          else if truthy g.project && !validIdent (g.project.getD []) then
            .error .invalidIdentifier
          else if truthy g.thread && !validIdent (g.thread.getD []) then
            .error .invalidIdentifier
          else if truthy g.topic && !validIdent (g.topic.getD []) then
            .error .invalidIdentifier
          else .ok ⟨g.version, g.workspace, sty, g.subjectId,
                    g.project, g.thread, g.topic⟩

/-- `SRNParser.to_string`: base `f"{version}.{workspace}.{subject_type.value}.{subject_id}"`,
then `.proj_`, `.thr_`, `.top_` appended for each truthy optional field. -/
def to_string (c : SRNComponents) : List Char :=
  c.version ++ '.' :: c.workspace ++ '.' :: c.subject_type.value
    ++ '.' :: c.subject_id
    ++ (if truthy c.project then '.' :: cs "proj_" ++ c.project.getD [] else [])
    ++ (if truthy c.thread then '.' :: cs "thr_" ++ c.thread.getD [] else [])
    ++ (if truthy c.topic then '.' :: cs "top_" ++ c.topic.getD [] else [])

/-!
Scope model (src/lightrag/scope/context.py).  A `ScopeContext` wraps an
`SRNComponents` value together with its canonical string; when constructed
from components the string is `to_string components`, and all comparisons
(`__eq__`, `__hash__`, set membership in the resolver) go through that
string.  The embedding works on `SRNComponents` directly and uses
`to_string` as the comparison key where the source compares contexts.
-/

/-- `ScopeContext.to_filter_dict`: the filter dictionary (an
insertion-ordered association list in this model): always `workspace`,
`subject_type`, `subject_id`, then each truthy optional field. -/
def to_filter_dict (c : SRNComponents) : List (List Char × List Char) :=
  [(cs "workspace", c.workspace),
   (cs "subject_type", c.subject_type.value),
   (cs "subject_id", c.subject_id)]
  ++ (if truthy c.project then [(cs "project", c.project.getD [])] else [])
  ++ (if truthy c.thread then [(cs "thread", c.thread.getD [])] else [])
  ++ (if truthy c.topic then [(cs "topic", c.topic.getD [])] else [])

/-- `ScopeContext.is_parent_of`: same mandatory components, every truthy
optional component of the parent equal in the child, and at least one
optional component that is falsy in the parent and truthy in the child. -/
def is_parent_of (self child : SRNComponents) : Bool :=
  if self.workspace ≠ child.workspace ∨ self.subject_type ≠ child.subject_type
      ∨ self.subject_id ≠ child.subject_id then false
  else if truthy self.project && child.project ≠ self.project then false
  else if truthy self.thread && child.thread ≠ self.thread then false
  else if truthy self.topic && child.topic ≠ self.topic then false
  else
    (!truthy self.project && truthy child.project)
    || (!truthy self.thread && truthy child.thread)
    || (!truthy self.topic && truthy child.topic)

/-- `ScopeContext.get_parent_scope`: drop the most specific truthy optional
component (topic, else thread — also clearing topic, else project — clearing
thread and topic); `none` at the base scope. -/
def get_parent_scope (c : SRNComponents) : Option SRNComponents :=
  if truthy c.topic then
    some { c with topic := none }
  else if truthy c.thread then
    some { c with thread := none, topic := none }
  else if truthy c.project then
    some { c with project := none, thread := none, topic := none }
  else none

/-- `ScopeContext.get_scope_depth`: number of truthy optional components. -/
def get_scope_depth (c : SRNComponents) : Nat :=
  (if truthy c.project then 1 else 0)
  + (if truthy c.thread then 1 else 0)
  + (if truthy c.topic then 1 else 0)

theorem get_parent_scope_depth_lt (c p : SRNComponents)
    (h : get_parent_scope c = some p) : get_scope_depth p < get_scope_depth c := by
  unfold get_parent_scope at h
  split at h
  · cases h
    simp_all [get_scope_depth, truthy]
  · split at h
    · cases h
      simp_all [get_scope_depth, truthy]
    · split at h
      · cases h
        simp_all [get_scope_depth, truthy]
      · cases h

/-- The `while True` parent-walking loop of
`ScopeResolver.resolve_inheritance`, with explicit fuel.  Each
`get_parent_scope` step strictly decreases `get_scope_depth`
(`get_parent_scope_depth_lt`), so any fuel of at least `get_scope_depth c`
runs the loop to its natural end (`chainAux_fuel`). -/
def chainAux : Nat → SRNComponents → List SRNComponents
  | 0, c => [c]
  | n + 1, c =>
    c :: (match get_parent_scope c with
          | none => []
          | some p => chainAux n p)

/-- `ScopeResolver.resolve_inheritance`: the scope followed by all its
ancestors up to the base scope, most specific first. -/
def resolve_inheritance (c : SRNComponents) : List SRNComponents :=
  chainAux (get_scope_depth c) c

/-- Any fuel of at least the scope depth runs the parent-walking loop to
completion: the fuel truncation of `chainAux` is never hit. -/
theorem chainAux_fuel (n : Nat) (c : SRNComponents)
    (h : get_scope_depth c ≤ n) : chainAux n c = resolve_inheritance c := by
  induction n using Nat.strong_induction_on generalizing c with
  | _ n ih =>
    unfold resolve_inheritance
    cases n with
    | zero =>
      rw [show get_scope_depth c = 0 from by omega]
    | succ m =>
      cases hp : get_parent_scope c with
      | none =>
        cases hd : get_scope_depth c <;> simp [chainAux, hp]
      | some p =>
        have hlt := get_parent_scope_depth_lt c p hp
        obtain ⟨k, hk⟩ : ∃ k, get_scope_depth c = k + 1 :=
          ⟨get_scope_depth c - 1, by omega⟩
        rw [hk]
        simp only [chainAux, hp]
        have e1 : chainAux m p = chainAux (get_scope_depth p) p := by
          have := ih m (by omega) p (by omega)
          rwa [resolve_inheritance] at this
        have e2 : chainAux k p = chainAux (get_scope_depth p) p := by
          have := ih k (by omega) p (by omega)
          rwa [resolve_inheritance] at this
        rw [e1, e2]

/-- Association-list lookup, modelling `dict[key]` / `key in dict`. -/
def dictLookup (k : List Char) : List (List Char × List Char) → Option (List Char)
  | [] => none
  | kv :: rest => if kv.1 = k then some kv.2 else dictLookup k rest

/-- Comparison key of a `ScopeContext`: its canonical SRN string
(`ScopeContext.__eq__` and `__hash__` both use `srn_string`, which for a
context built from components is `to_string components`). -/
def scopeKey (c : SRNComponents) : List Char := to_string c

/-- Set intersection `common_ancestors &= scope_ancestors` of
`ScopeResolver.get_common_parent`, on lists with `ScopeContext` equality. -/
def interBy (xs ys : List SRNComponents) : List SRNComponents :=
  xs.filter (fun x => ys.any (fun y => scopeKey y = scopeKey x))

/-- `min(common_ancestors, key=lambda s: s.get_scope_depth())` of
`ScopeResolver.get_common_parent` (CPython `min` keeps the earlier of two
equally-deep elements; in every reachable call the depths are distinct, so
the tie-break is immaterial). -/
def minByDepth : List SRNComponents → Option SRNComponents
  | [] => none
  | x :: rest =>
    match minByDepth rest with
    | none => some x
    | some m => if get_scope_depth m < get_scope_depth x then some m else some x

/-- `ScopeResolver.get_common_parent`: `none` on no scopes, the direct
parent on one scope; otherwise intersect all inheritance chains (as sets of
`ScopeContext`s) and take the `min` by scope depth of the intersection
(`none` if it is empty). -/
def get_common_parent (scopes : List SRNComponents) : Option SRNComponents :=
  match scopes with
  | [] => none
  | [s] => get_parent_scope s
  | s :: rest =>
    let common := rest.foldl (fun acc sc => interBy acc (resolve_inheritance sc))
      (resolve_inheritance s)
    if common.isEmpty then none else minByDepth common

/-- A merged-filter value: a plain string (`field: value`) or a list
(`field__in: [values]`). -/
inductive FVal where
  | single (v : List Char)
  | multi (vs : List (List Char))
deriving DecidableEq, Repr

/-- The fixed field list of `ScopeResolver.merge_scope_filters`. -/
def mergeFields : List (List Char) :=
  [cs "workspace", cs "subject_type", cs "subject_id",
   cs "project", cs "thread", cs "topic"]

/-- The per-field value collection of `ScopeResolver.merge_scope_filters`:
`values = set(); for scope in scopes: ... values.add(...)`.  This is the
CONTENTS of the Python set, represented canonically as a duplicate-free
list in first-insertion order; the order in which `list(values)` actually
enumerates the set is hash-based and unspecified in CPython, and is
therefore a separate, explicit parameter of `merge_scope_filters` below. -/
def collectVals (field : List Char) (scopes : List SRNComponents) : List (List Char) :=
  scopes.foldl
    (fun vs s =>
      match dictLookup field (to_filter_dict s) with
      | some v => if v ∈ vs then vs else vs ++ [v]
      | none => vs)
    []

/-- `ScopeResolver.merge_scope_filters`: `{}` on no scopes, the plain filter
dictionary on one scope; otherwise, per field in `mergeFields` order, emit
`field: value` when exactly one distinct value was collected and
`field__in: [values]` when more than one (nothing when none).  The
`list(values)` call of the source enumerates a CPython set in an
unspecified, hash-dependent order, so the embedding takes that enumeration
as an explicit parameter `setOrder`, applied to the set's canonical
contents (`collectVals`): every behavior of the source corresponds to some
`setOrder` that permutes its argument, and no particular order is assumed. -/
def merge_scope_filters (setOrder : List (List Char) → List (List Char))
    (scopes : List SRNComponents) : List (List Char × FVal) :=
  match scopes with
  | [] => []
  | [s] => (to_filter_dict s).map (fun kv => (kv.1, FVal.single kv.2))
  | _ =>
    mergeFields.foldl
      (fun acc field =>
        let values := setOrder (collectVals field scopes)
        if values.isEmpty then acc
        else if values.length = 1 then acc ++ [(field, FVal.single (values.headD []))]
        else acc ++ [(field ++ cs "__in", FVal.multi values)])
      []

/-- `ScopeResolutionError` of src/lightrag/scope/exceptions.py (payload
message not modelled). -/
inductive ScopeResolutionError where
  | mk
deriving DecidableEq, Repr

/-- `ScopeResolver.create_scope_from_workspace`: error unless the identifier
has length 32 and lowercases to hex characters; otherwise a base scope with
version `"1"`, the lowercased workspace, the default subject type (resolved
through the `SubjectType` constructor — an unknown default also errors) and
the default subject id.  Every failure surfaces as `ScopeResolutionError`
(the in-`try` raise is re-wrapped by the `except` clause). -/
def create_scope_from_workspace (workspace : List Char)
    (default_subject_type : List Char := cs "system")
    (default_subject_id : List Char := cs "default") :
    Except ScopeResolutionError SRNComponents :=
  if workspace.length ≠ 32
      || !((workspace.map charLower).all isHexLowerChar) then
    .error .mk
  else
    match SubjectType.ofString default_subject_type with
    | none => .error .mk
    | some st =>
      .ok ⟨cs "1", workspace.map charLower, st, default_subject_id,
           none, none, none⟩

/-!
Migration engine (src/lightrag/scope/migration.py).  The filesystem under
`working_dir` is modelled as `FS`: the top-level workspace directories with
their files, plus the set of existing nested paths (used only by the
target-path conflict check of `create_migration_plan`).  A file's JSON
payload is abstracted to `jsonItems`: `some n` when the file parses as a
JSON object with `n` entries, `none` when it fails to parse or is not an
object (both of which the source counts as 0 items).  Wall-clock timestamps
(`start_time`/`end_time`), the migration log file and the textual error
messages are not modelled; OS-level failures of `os.listdir`/`open` during
`_perform_migration` (the source's broad `except` clauses) are outside the
model, so its simulated walk always reports success, as the source does on
an intact directory.  The in-place mutations of one `MigrationStatus` object
are modelled by returning the record's successive `status` values as a
trace, together with the final table.
-/

/-- One file of a legacy workspace directory. -/
structure FileInfo where
  name : List Char
  size : Nat
  jsonItems : Option Nat
deriving DecidableEq, Repr

/-- The modelled filesystem under `working_dir`. -/
structure FS where
  dirs : List (List Char × List FileInfo)
  paths : List (List (List Char))
deriving DecidableEq, Repr

/-- Directory lookup, modelling `os.path.exists(os.path.join(working_dir, ws))`
plus `os.listdir`. -/
def lookupDir (ws : List Char) : List (List Char × List FileInfo) → Option (List FileInfo)
  | [] => none
  | d :: rest => if d.1 = ws then some d.2 else lookupDir ws rest

/-- Item count the analyzer attributes to a file: JSON files contribute
their object size (0 on parse failure or non-object payload), others 0. -/
def itemCount (f : FileInfo) : Nat :=
  if (cs ".json").isSuffixOf f.name then (f.jsonItems.getD 0) else 0

/-- The storage patterns of `ScopeMigrationTool.analyze_workspace`, already
split at `*` into the (prefix, suffix) pair the source tests with
`startswith`/`endswith`. -/
def storagePatterns : List (List Char × (List Char × List Char)) :=
  [(cs "kv_store", (cs "kv_store_", cs ".json")),
   (cs "vector_store", (cs "", cs ".vectordb")),
   (cs "graph_store", (cs "", cs ".graphdb")),
   (cs "doc_status", (cs "doc_status_", cs ".json"))]

/-- Files of a directory matching one storage pattern. -/
def matchedFiles (pat : List Char × List Char) (files : List FileInfo) : List FileInfo :=
  files.filter (fun f => pat.1.isPrefixOf f.name && pat.2.isSuffixOf f.name)

/-- Result of `ScopeMigrationTool.analyze_workspace` (the fields the
migration path reads: existence, per-storage-type files, and totals). -/
structure Analysis where
  exists' : Bool
  storage_files : List (List Char × List FileInfo)
  total_items : Nat
  total_size : Nat
deriving Repr

/-- `ScopeMigrationTool.analyze_workspace`: report a missing directory;
otherwise scan the four storage patterns, keeping the non-empty groups and
accumulating item and byte totals over every pattern match. -/
def analyze_workspace (fs : FS) (workspace : List Char) : Analysis :=
  match lookupDir workspace fs.dirs with
  | none => ⟨false, [], 0, 0⟩
  | some files =>
    let groups := storagePatterns.map (fun sp => (sp.1, matchedFiles sp.2 files))
    ⟨true,
     groups.filter (fun g => !g.2.isEmpty),
     (groups.map (fun g => (g.2.map itemCount).sum)).sum,
     (groups.map (fun g => (g.2.map FileInfo.size).sum)).sum⟩

/-- Validation errors of a migration plan. -/
inductive MigErr where
  | sourceMissing
deriving DecidableEq, Repr

/-- Result of `ScopeMigrationTool.create_migration_plan` (the fields the
migration path reads). -/
structure MigrationPlan where
  validation_errors : List MigErr
  warnings_target_exists : Bool
  storage_types : List (List Char)
  estimated_items : List (List Char × Nat)
deriving Repr

/-- The nested scope directory path the planner probes for conflicts:
`workspace/subject_type/subject_id[/proj_p][/thr_t][/top_o]`. -/
def targetPath (t : SRNComponents) : List (List Char) :=
  [t.workspace, t.subject_type.value, t.subject_id]
  ++ (if truthy t.project then [cs "proj_" ++ t.project.getD []] else [])
  ++ (if truthy t.thread then [cs "thr_" ++ t.thread.getD []] else [])
  ++ (if truthy t.topic then [cs "top_" ++ t.topic.getD []] else [])

/-- `ScopeMigrationTool.create_migration_plan`: a missing source workspace
is the only validation error (the `target_scope.to_dict()` probe of an
already-constructed scope cannot raise); an existing target path is a
non-fatal warning; per-storage-type item estimates come from the analysis. -/
def create_migration_plan (fs : FS) (workspace : List Char)
    (target : SRNComponents) : MigrationPlan :=
  let analysis := analyze_workspace fs workspace
  if !analysis.exists' then ⟨[.sourceMissing], false, [], []⟩
  else
    ⟨[],
     fs.paths.contains (targetPath target),
     analysis.storage_files.map (fun g => g.1),
     analysis.storage_files.map (fun g => (g.1, (g.2.map itemCount).sum))⟩

/-- `ScopeMigrationTool.validate_migration`: the plan's validation errors. -/
def validate_migration (fs : FS) (workspace : List Char)
    (target : SRNComponents) : List MigErr :=
  (create_migration_plan fs workspace target).validation_errors

/-- `sum(plan.estimated_items.values())`, the `total_items` the migration
records from its plan. -/
def planTotalItems (fs : FS) (workspace : List Char) (target : SRNComponents) : Nat :=
  ((create_migration_plan fs workspace target).estimated_items.map Prod.snd).sum

/-- `ScopeMigrationTool._perform_migration`: walk every `.json` file of the
workspace directory, summing the JSON-object sizes into `items_migrated`;
reports success (its failure branch is the unmodelled OS-error `except`). -/
def perform_migration (fs : FS) (workspace : List Char) : Bool × Nat :=
  match lookupDir workspace fs.dirs with
  | none => (true, 0)
  | some files =>
    (true,
     ((files.filter (fun f => (cs ".json").isSuffixOf f.name)).map
       (fun f => f.jsonItems.getD 0)).sum)

/-- The `status` field values of a `MigrationStatus` record. -/
inductive MStatus where
  | pending
  | running
  | completed
  | failed
  | rolled_back
deriving DecidableEq, Repr

/-- `MigrationStatus` dataclass (modelled fields). -/
structure MigrationStatus where
  migration_id : List Char
  source_workspace : List Char
  target_scope : List Char
  status : MStatus
  items_migrated : Nat := 0
  total_items : Nat := 0
  has_error : Bool := false
deriving DecidableEq, Repr

/-- The migration-status table `self._migration_status`, with dict-assignment
insert. -/
abbrev MTable := List (List Char × MigrationStatus)

/-- `self._migration_status[mid] = status`: replace an existing entry, else
append. -/
def tinsert (k : List Char) (v : MigrationStatus) : MTable → MTable
  | [] => [(k, v)]
  | kv :: rest => if kv.1 = k then (k, v) :: rest else kv :: tinsert k v rest

/-- `mid in self._migration_status` / table lookup. -/
def tlookup (k : List Char) : MTable → Option MigrationStatus
  | [] => none
  | kv :: rest => if kv.1 = k then some kv.2 else tlookup k rest

/-- Result dictionary of `ScopeMigrationTool.migrate_workspace_to_scope`,
one constructor per return site. -/
inductive MigResult where
  | validationFailed (migration_id : List Char) (errors : List MigErr)
  | dryRun (migration_id : List Char) (status : MStatus)
      (storage_types : List (List Char)) (estimated_items : List (List Char × Nat))
  | executed (migration_id : List Char) (status : MStatus)
      (items_migrated total_items : Nat)
deriving Repr

/-- `ScopeMigrationTool.migrate_workspace_to_scope`.  The fresh
`uuid.uuid4()` is passed in as `mid`.  Returns the unchanged-by-construction
filesystem (no statement of the source writes to storage; the real pass is a
read-only simulated walk), the updated status table, the result dictionary,
and the trace of `status` values the new record went through, in assignment
order. -/
def migrate_workspace_to_scope (fs : FS) (table : MTable) (workspace : List Char)
    (target : SRNComponents) (dry_run : Bool) (mid : List Char) :
    FS × MTable × MigResult × List MStatus :=
  let st0 : MigrationStatus :=
    { migration_id := mid, source_workspace := workspace,
      target_scope := to_string target, status := .pending }
  let verrs := validate_migration fs workspace target
  if !verrs.isEmpty then
    (fs,
     tinsert mid { st0 with status := .failed, has_error := true } table,
     .validationFailed mid verrs,
     [.pending, .failed])
  else
    let plan := create_migration_plan fs workspace target
    let total := (plan.estimated_items.map Prod.snd).sum
    if dry_run then
      (fs,
       tinsert mid { st0 with status := .completed, items_migrated := total,
                              total_items := total } table,
       .dryRun mid .completed plan.storage_types plan.estimated_items,
       [.pending, .running, .completed])
    else
      let res := perform_migration fs workspace
      if res.1 then
        (fs,
         tinsert mid { st0 with status := .completed, items_migrated := res.2,
                                total_items := total } table,
         .executed mid .completed res.2 total,
         [.pending, .running, .completed])
      else
        (fs,
         tinsert mid { st0 with status := .failed, items_migrated := res.2,
                                total_items := total, has_error := true } table,
         .executed mid .failed res.2 total,
         [.pending, .running, .failed])

/-- Result of `ScopeMigrationTool.rollback_migration`. -/
inductive RollbackResult where
  | errorNotFound
  | errorBadState (status : MStatus)
  | success
deriving DecidableEq, Repr

/-- `ScopeMigrationTool.rollback_migration`: unknown id → "not found" error;
status other than `completed` → "cannot rollback" error; otherwise the
record's status becomes `rolled_back`. -/
def rollback_migration (table : MTable) (mid : List Char) :
    MTable × RollbackResult :=
  match tlookup mid table with
  | none => (table, .errorNotFound)
  | some st =>
    if st.status ≠ .completed then (table, .errorBadState st.status)
    else (tinsert mid { st with status := .rolled_back } table, .success)

/-!
Inversion lemmas for the parser, leading to the round-trip law (C3).
-/

/-- The segment list a successful optional-tail match corresponds to. -/
def optSegList (p t o : Option (List Char)) : List (List Char) :=
  (match p with | none => [] | some x => [cs "proj_" ++ x])
  ++ (match t with | none => [] | some x => [cs "thr_" ++ x])
  ++ (match o with | none => [] | some x => [cs "top_" ++ x])

theorem prefix_drop (pre seg : List Char) (h : pre.isPrefixOf seg = true) :
    pre ++ seg.drop pre.length = seg := by
  have h2 : pre <+: seg := List.isPrefixOf_iff_prefix.mp h
  obtain ⟨t, rfl⟩ := h2
  simp

theorem takeOpt_inv (pre : List Char) (segs : List (List Char))
    (p : Option (List Char)) (rest : List (List Char))
    (h : takeOpt pre segs = some (p, rest)) :
    (p = none ∧ segs = rest)
    ∨ (∃ x, p = some x ∧ validIdent x = true ∧ segs = (pre ++ x) :: rest) := by
  unfold takeOpt at h
  cases segs with
  | nil =>
    simp at h
    exact Or.inl ⟨h.1.symm, h.2.symm⟩
  | cons seg restSegs =>
    by_cases hpre : pre.isPrefixOf seg
    · simp only [hpre, if_pos] at h
      by_cases hv : validIdent (seg.drop pre.length) = true
      · simp only [hv, if_pos] at h
        cases h
        exact Or.inr ⟨seg.drop pre.length, rfl, hv,
          by rw [prefix_drop pre seg hpre]⟩
      · simp only [hv] at h
        simp at h
    · simp only [hpre] at h
      simp at h
      exact Or.inl ⟨h.1.symm, by rw [h.2]⟩

def identOkOpt : Option (List Char) → Prop
  | none => True
  | some x => validIdent x = true

theorem matchOpts_inv (segs : List (List Char))
    (p t o : Option (List Char)) (h : matchOpts segs = some (p, t, o)) :
    segs = optSegList p t o ∧ identOkOpt p ∧ identOkOpt t ∧ identOkOpt o := by
  unfold matchOpts at h
  cases h1 : takeOpt (cs "proj_") segs with
  | none => rw [h1] at h; cases h
  | some r1 =>
    obtain ⟨p1, s1⟩ := r1
    rw [h1] at h
    dsimp only at h
    cases h2 : takeOpt (cs "thr_") s1 with
    | none => rw [h2] at h; cases h
    | some r2 =>
      obtain ⟨t1, s2⟩ := r2
      rw [h2] at h
      dsimp only at h
      cases h3 : takeOpt (cs "top_") s2 with
      | none => rw [h3] at h; cases h
      | some r3 =>
        obtain ⟨o1, s3⟩ := r3
        rw [h3] at h
        dsimp only at h
        by_cases he : s3.isEmpty
        · simp only [he, if_pos] at h
          cases h
          have hs3 : s3 = [] := by simpa using he
          subst hs3
          have i1 := takeOpt_inv _ _ _ _ h1
          have i2 := takeOpt_inv _ _ _ _ h2
          have i3 := takeOpt_inv _ _ _ _ h3
          rcases i3 with ⟨ho, hs2⟩ | ⟨x3, ho, hv3, hs2⟩ <;>
            rcases i2 with ⟨ht, hs1⟩ | ⟨x2, ht, hv2, hs1⟩ <;>
              rcases i1 with ⟨hp, hs0⟩ | ⟨x1, hp, hv1, hs0⟩ <;>
                subst_vars <;> simp_all [optSegList, identOkOpt]
        · simp only [he] at h
          simp at h

theorem srnMatch_inv (c : List Char) (g : SRNGroups) (h : srnMatch c = some g) :
    splitDot c = g.version :: g.workspace :: g.subjectType :: g.subjectId
      :: optSegList g.project g.thread g.topic
    ∧ validIdent g.subjectId = true
    ∧ identOkOpt g.project ∧ identOkOpt g.thread ∧ identOkOpt g.topic := by
  unfold srnMatch at h
  cases hs : splitDot c with
  | nil => rw [hs] at h; cases h
  | cons v rest0 =>
    rw [hs] at h
    cases rest0 with
    | nil => cases h
    | cons ws rest1 =>
      cases rest1 with
      | nil => cases h
      | cons st rest2 =>
        cases rest2 with
        | nil => cases h
        | cons sid rest =>
          dsimp only at h
          by_cases hcond : ((!v.isEmpty && v.all isDigitChar) && isWs32 ws
              && (SubjectType.ofString st).isSome && validIdent sid) = true
          · rw [if_pos hcond] at h
            cases hm : matchOpts rest with
            | none => rw [hm] at h; cases h
            | some r =>
              obtain ⟨p, t, o⟩ := r
              rw [hm] at h
              dsimp only at h
              cases h
              have hi := matchOpts_inv rest p t o hm
              simp only [Bool.and_eq_true] at hcond
              exact ⟨by rw [hi.1], hcond.2, hi.2.1, hi.2.2.1, hi.2.2.2⟩
          · rw [if_neg hcond] at h
            cases h

theorem identOk_ne_nil (x : List Char) (h : identOkOpt (some x)) : x ≠ [] := by
  simp [identOkOpt, validIdent] at h
  intro hcon
  subst hcon
  simp at h

theorem to_string_join (c : SRNComponents)
    (hp : identOkOpt c.project) (ht : identOkOpt c.thread) (ho : identOkOpt c.topic) :
    to_string c = joinDot ([c.version, c.workspace, c.subject_type.value,
      c.subject_id] ++ optSegList c.project c.thread c.topic) := by
  obtain ⟨v, w, sty, sid, p, t, o⟩ := c
  rcases p with _ | x1 <;> rcases t with _ | x2 <;> rcases o with _ | x3
  all_goals simp only at hp ht ho
  all_goals try have n1 := identOk_ne_nil x1 hp
  all_goals try have n2 := identOk_ne_nil x2 ht
  all_goals try have n3 := identOk_ne_nil x3 ho
  all_goals simp_all [to_string, optSegList, joinDot, truthy, List.isEmpty_iff,
    cs, List.append_assoc, List.cons_append]

theorem parse_inv (s : List Char) (comps : SRNComponents)
    (hc : canonicalize s = .ok s) (h : parse s = .ok comps) :
    ∃ g : SRNGroups, srnMatch s = some g
      ∧ comps.version = g.version ∧ comps.workspace = g.workspace
      ∧ comps.subject_type.value = g.subjectType
      ∧ comps.subject_id = g.subjectId
      ∧ comps.project = g.project ∧ comps.thread = g.thread
      ∧ comps.topic = g.topic := by
  unfold parse at h
  rw [hc] at h
  dsimp only at h
  cases hm : srnMatch s with
  | none => rw [hm] at h; cases h
  | some g =>
    rw [hm] at h
    dsimp only at h
    refine ⟨g, rfl, ?_⟩
    split at h
    · cases h
    · split at h
      · cases h
      · cases hsty : SubjectType.ofString g.subjectType with
        | none => rw [hsty] at h; cases h
        | some sty =>
          rw [hsty] at h
          dsimp only at h
          split at h
          · cases h
          · split at h
            · cases h
            · split at h
              · cases h
              · split at h
                · cases h
                · cases h
                  exact ⟨rfl, rfl, SubjectType.value_ofString _ _ hsty, rfl,
                    rfl, rfl, rfl⟩

/-- C3: for every valid canonical SRN string `s` — one that `parse` accepts
and that equals its own canonicalization — re-serializing the parsed
components gives back `s`: `to_string (parse s) = s`. -/
theorem srn_roundtrip (s : List Char) (comps : SRNComponents)
    (hc : canonicalize s = .ok s) (h : parse s = .ok comps) :
    to_string comps = s := by
  obtain ⟨g, hm, hv, hw, hst, hsid, hp, ht, ho⟩ := parse_inv s comps hc h
  have hi := srnMatch_inv s g hm
  have hj := to_string_join comps
    (by rw [hp]; exact hi.2.2.1) (by rw [ht]; exact hi.2.2.2.1)
    (by rw [ho]; exact hi.2.2.2.2)
  rw [hj, hv, hw, hst, hsid, hp, ht, ho]
  simp only [List.cons_append, List.nil_append]
  rw [← hi.1, joinDot_splitDot]

/-- Witness for C3 at a concrete canonical SRN. -/
theorem srn_roundtrip_witness :
    to_string ⟨cs "1", cs "abc12345abcd12345abc1234567890ab", .user,
        cs "johndoe", some (cs "ai"), none, none⟩
      = cs "1.abc12345abcd12345abc1234567890ab.user.johndoe.proj_ai" :=
  srn_roundtrip (cs "1.abc12345abcd12345abc1234567890ab.user.johndoe.proj_ai")
    ⟨cs "1", cs "abc12345abcd12345abc1234567890ab", .user,
      cs "johndoe", some (cs "ai"), none, none⟩
    (by rfl) (by rfl)

/-- A fixed 32-hex workspace used by the concrete examples. -/
def wsEx : List Char := cs "abc12345abcd12345abc1234567890ab"

/-- C1: on three scopes sharing workspace, subject and project but with
distinct threads — whose inheritance chains intersect in the project-level
scope (depth 1) and the base scope (depth 0) — `get_common_parent` returns
the base scope, the element of minimum depth of the intersection, and not
the depth-1 project-level scope that the claim (and the source's own
"return the most specific common ancestor" comment and
`test_get_common_parent`) call for: `min(..., key=depth)` picks the least
specific element. -/
theorem get_common_parent_picks_min_depth :
    get_common_parent
        [⟨cs "1", wsEx, .user, cs "john", some (cs "ai"), some (cs "chat1"), none⟩,
         ⟨cs "1", wsEx, .user, cs "john", some (cs "ai"), some (cs "chat2"), none⟩,
         ⟨cs "1", wsEx, .user, cs "john", some (cs "ai"), some (cs "chat3"), none⟩]
      = some ⟨cs "1", wsEx, .user, cs "john", none, none, none⟩
    ∧ get_scope_depth ⟨cs "1", wsEx, .user, cs "john", none, none, none⟩ = 0
    ∧ get_common_parent
        [⟨cs "1", wsEx, .user, cs "john", some (cs "ai"), some (cs "chat1"), none⟩,
         ⟨cs "1", wsEx, .user, cs "john", some (cs "ai"), some (cs "chat2"), none⟩,
         ⟨cs "1", wsEx, .user, cs "john", some (cs "ai"), some (cs "chat3"), none⟩]
      ≠ some ⟨cs "1", wsEx, .user, cs "john", some (cs "ai"), none, none⟩ := by
  refine ⟨by decide, by decide, by decide⟩

/-- C2 counterexample: a canonical SRN with a `thr_` segment but no `proj_`
segment, which the claim says `parse` must reject with `InvalidFormat`, is
accepted — the grammar's optional groups are independent, so the skipped
`project` level simply comes out `none`. -/
theorem parse_accepts_thread_without_project :
    parse (cs "1.abc12345abcd12345abc1234567890ab.user.alice.thr_sprint1")
      = .ok ⟨cs "1", wsEx, .user, cs "alice", none, some (cs "sprint1"), none⟩ := by
  rfl

/-- C2 amended: the grammar does not reject level-skipping.  Each optional
segment is independently optional (in the fixed order `proj_`, `thr_`,
`top_`), so `parse` accepts a topic segment without thread and project, and
a topic segment without thread, producing `SRNComponents` whose skipped
levels are `none`. -/
theorem parse_allows_skipped_optional_levels :
    parse (cs "1.abc12345abcd12345abc1234567890ab.user.alice.top_nlp")
      = .ok ⟨cs "1", wsEx, .user, cs "alice", none, none, some (cs "nlp")⟩
    ∧ parse (cs "1.abc12345abcd12345abc1234567890ab.user.alice.proj_ai.top_nlp")
      = .ok ⟨cs "1", wsEx, .user, cs "alice", some (cs "ai"), none, some (cs "nlp")⟩ := by
  exact ⟨rfl, rfl⟩

theorem truthy_getD (o : Option (List Char)) (h : truthy o = true) :
    some (o.getD []) = o := by
  cases o <;> simp_all [truthy]

/-- C6 counterexample: the filter dictionary of a fully-specified scope has
no `version` key at all — the claim's mandatory `version` field is absent
(the source emits only workspace, subject_type, subject_id and the present
optional fields). -/
theorem to_filter_dict_has_no_version_key :
    dictLookup (cs "version")
        (to_filter_dict ⟨cs "1", wsEx, .user, cs "johndoe",
          some (cs "ai"), some (cs "chat"), some (cs "nlp")⟩) = none
    ∧ (to_filter_dict ⟨cs "1", wsEx, .user, cs "johndoe",
          some (cs "ai"), some (cs "chat"), some (cs "nlp")⟩).map Prod.fst
      = [cs "workspace", cs "subject_type", cs "subject_id",
         cs "project", cs "thread", cs "topic"] := by
  exact ⟨by decide, by decide⟩

/-- C6 amended: for every scope, `to_filter_dict` contains exactly
`workspace`, `subject_type`, `subject_id` (the `version` component is NOT
included) plus exactly the truthy optional fields, each mapped to its value
— never a key whose value is absent. -/
theorem to_filter_dict_exact_fields (c : SRNComponents) :
    (to_filter_dict c).map Prod.fst
      = [cs "workspace", cs "subject_type", cs "subject_id"]
        ++ (if truthy c.project then [cs "project"] else [])
        ++ (if truthy c.thread then [cs "thread"] else [])
        ++ (if truthy c.topic then [cs "topic"] else [])
    ∧ dictLookup (cs "version") (to_filter_dict c) = none
    ∧ dictLookup (cs "workspace") (to_filter_dict c) = some c.workspace
    ∧ dictLookup (cs "subject_type") (to_filter_dict c) = some c.subject_type.value
    ∧ dictLookup (cs "subject_id") (to_filter_dict c) = some c.subject_id
    ∧ dictLookup (cs "project") (to_filter_dict c)
        = (if truthy c.project then c.project else none)
    ∧ dictLookup (cs "thread") (to_filter_dict c)
        = (if truthy c.thread then c.thread else none)
    ∧ dictLookup (cs "topic") (to_filter_dict c)
        = (if truthy c.topic then c.topic else none) := by
  by_cases hp : truthy c.project <;> by_cases ht : truthy c.thread <;>
    by_cases ho : truthy c.topic <;>
      simp_all [to_filter_dict, dictLookup, truthy_getD, cs]

/-- C7 counterexample: a base scope (no optional fields) IS `is_parent_of`
a scope that extends it by two optional levels (project and thread) — the
source only demands "at least one additional component", so grandparents
are related to grandchildren, contrary to the claim. -/
theorem grandparent_is_parent_of_grandchild :
    is_parent_of ⟨cs "1", wsEx, .user, cs "johndoe", none, none, none⟩
      ⟨cs "1", wsEx, .user, cs "johndoe", some (cs "ai"), some (cs "chat"), none⟩
      = true := by
  decide

/-- C7 amended: `is_parent_of` relates any ancestor to any strict
descendant, not only immediate parent and child: whenever the mandatory
fields agree, every truthy optional field of `a` agrees with `b`, and `b`
has one or more optional levels that `a` lacks (so in particular any
grandparent/grandchild pair with two added levels), `is_parent_of a b` is
true. -/
theorem is_parent_of_any_strict_ancestor (a b : SRNComponents)
    (hw : a.workspace = b.workspace) (hst : a.subject_type = b.subject_type)
    (hsid : a.subject_id = b.subject_id)
    (hp : truthy a.project = true → b.project = a.project)
    (ht : truthy a.thread = true → b.thread = a.thread)
    (ho : truthy a.topic = true → b.topic = a.topic)
    (hextra : 1 ≤ (if !truthy a.project && truthy b.project then 1 else 0)
      + (if !truthy a.thread && truthy b.thread then 1 else 0)
      + (if !truthy a.topic && truthy b.topic then 1 else 0)) :
    is_parent_of a b = true := by
  by_cases p1 : truthy a.project <;> by_cases p2 : truthy b.project <;>
    by_cases t1 : truthy a.thread <;> by_cases t2 : truthy b.thread <;>
      by_cases o1 : truthy a.topic <;> by_cases o2 : truthy b.topic <;>
        simp_all [is_parent_of]

/-- Witness for C7's amended theorem: a base scope and a descendant two
levels below it (thread and topic added). -/
theorem is_parent_of_any_strict_ancestor_witness :
    is_parent_of ⟨cs "1", wsEx, .user, cs "alice", some (cs "ai"), none, none⟩
      ⟨cs "1", wsEx, .user, cs "alice", some (cs "ai"), some (cs "chat"),
        some (cs "nlp")⟩ = true :=
  is_parent_of_any_strict_ancestor _ _ rfl rfl rfl
    (by decide) (by decide) (by decide) (by decide)

/-- C8 counterexample: an identifier of 32 UPPERCASE hex characters, which
the claim says must raise `ScopeResolutionError`, is accepted — the source
lowercases before the hex test (`workspace.lower()`), so the check is
case-insensitive and the stored workspace is the lowercased identifier. -/
theorem create_scope_accepts_uppercase_hex :
    create_scope_from_workspace (cs "ABCDEF0123456789ABCDEF0123456789")
        (cs "system") (cs "default")
      = .ok ⟨cs "1", cs "abcdef0123456789abcdef0123456789", .system,
          cs "default", none, none, none⟩ := by
  rfl

/-- C8 amended: `create_scope_from_workspace` fails with
`ScopeResolutionError` unless the identifier is exactly 32 hex characters
up to case (its lowercasing is all lowercase hex); on success it returns the
depth-0 base scope built from the lowercased identifier and the supplied
default subject type and subject id. -/
theorem create_scope_from_workspace_spec (ws dst dsi : List Char)
    (st : SubjectType) (hst : SubjectType.ofString dst = some st) :
    (ws.length = 32 ∧ (ws.map charLower).all isHexLowerChar = true →
      create_scope_from_workspace ws dst dsi
        = .ok ⟨cs "1", ws.map charLower, st, dsi, none, none, none⟩
      ∧ get_scope_depth ⟨cs "1", ws.map charLower, st, dsi, none, none, none⟩ = 0)
    ∧ (¬(ws.length = 32 ∧ (ws.map charLower).all isHexLowerChar = true) →
      create_scope_from_workspace ws dst dsi = .error .mk) := by
  constructor
  · intro h
    have hcond : (decide (ws.length ≠ 32)
        || !((ws.map charLower).all isHexLowerChar)) = false := by
      simp [h.1, h.2]
    constructor
    · simp only [create_scope_from_workspace, hcond, Bool.false_eq_true,
        if_false, hst]
    · simp [get_scope_depth, truthy]
  · intro h
    have hcond : (decide (ws.length ≠ 32)
        || !((ws.map charLower).all isHexLowerChar)) = true := by
      rcases not_and_or.mp h with h1 | h1 <;> simp [h1]
    simp only [create_scope_from_workspace, hcond, if_true]

/-- Witness for C8's amended theorem at a concrete lowercase 32-hex
identifier. -/
theorem create_scope_from_workspace_spec_witness :
    create_scope_from_workspace (cs "abc12345abcd12345abc1234567890ab")
        (cs "system") (cs "default")
      = .ok ⟨cs "1", (cs "abc12345abcd12345abc1234567890ab").map charLower,
          .system, cs "default", none, none, none⟩
    ∧ get_scope_depth ⟨cs "1",
        (cs "abc12345abcd12345abc1234567890ab").map charLower,
        .system, cs "default", none, none, none⟩ = 0 :=
  (create_scope_from_workspace_spec (cs "abc12345abcd12345abc1234567890ab")
    (cs "system") (cs "default") .system (by decide)) |>.1 ⟨by decide, by decide⟩

/-- The dictionary entries one field contributes in the multi-scope branch
of `merge_scope_filters` (none / `field: value` / `field__in: [values]`),
for a given set-enumeration order. -/
def mergeEntry (setOrder : List (List Char) → List (List Char))
    (scopes : List SRNComponents) (field : List Char) :
    List (List Char × FVal) :=
  let values := setOrder (collectVals field scopes)
  if values.isEmpty then []
  else if values.length = 1 then [(field, FVal.single (values.headD []))]
  else [(field ++ cs "__in", FVal.multi values)]

theorem foldl_append_join {α β : Type} (f : α → List β) (l : List α)
    (acc : List β) :
    l.foldl (fun a x => a ++ f x) acc = acc ++ (l.map f).flatten := by
  induction l generalizing acc with
  | nil => simp
  | cons x xs ih => simp [ih, List.append_assoc]

theorem merge_scope_filters_eq (setOrder : List (List Char) → List (List Char))
    (s1 s2 : SRNComponents) (rest : List SRNComponents) :
    merge_scope_filters setOrder (s1 :: s2 :: rest)
      = (mergeFields.map (mergeEntry setOrder (s1 :: s2 :: rest))).flatten := by
  have hfun : (fun (acc : List (List Char × FVal)) (field : List Char) =>
        let values := setOrder (collectVals field (s1 :: s2 :: rest))
        if values.isEmpty then acc
        else if values.length = 1 then
          acc ++ [(field, FVal.single (values.headD []))]
        else acc ++ [(field ++ cs "__in", FVal.multi values)])
      = fun acc field => acc ++ mergeEntry setOrder (s1 :: s2 :: rest) field := by
    funext acc field
    simp only [mergeEntry]
    split
    · simp
    · split <;> rfl
  show List.foldl
      (fun acc field =>
        let values := setOrder (collectVals field (s1 :: s2 :: rest))
        if values.isEmpty then acc
        else if values.length = 1 then
          acc ++ [(field, FVal.single (values.headD []))]
        else acc ++ [(field ++ cs "__in", FVal.multi values)])
      [] mergeFields
    = (mergeFields.map (mergeEntry setOrder (s1 :: s2 :: rest))).flatten
  rw [hfun, foldl_append_join]
  simp

theorem collectVals_nodup (field : List Char) (scopes : List SRNComponents) :
    (collectVals field scopes).Nodup := by
  have haux : ∀ (l : List SRNComponents) (acc : List (List Char)), acc.Nodup →
      (l.foldl
        (fun vs s =>
          match dictLookup field (to_filter_dict s) with
          | some v => if v ∈ vs then vs else vs ++ [v]
          | none => vs)
        acc).Nodup := by
    intro l
    induction l with
    | nil => intro acc h; simpa
    | cons s rest ih =>
      intro acc h
      simp only [List.foldl_cons]
      apply ih
      cases hd : dictLookup field (to_filter_dict s) with
      | none => simpa
      | some v =>
        by_cases hv : v ∈ acc
        · simpa [hv]
        · simp only [hv, if_neg, not_false_iff]
          exact List.Nodup.append h (List.nodup_singleton v)
            (by simpa using hv)
  exact haux scopes [] (by simp)

/-- C4 counterexample: `List.reverse` is an admissible set-enumeration
order (it permutes the collected distinct values), and under it the
spec's own example — subject ids john, jane, bob — emits
`subject_id__in: [bob, jane, john]`, which is NOT the first-seen order
`[john, jane, bob]` the claim promises; the source's `list(values)` of a
CPython set guarantees no particular order. -/
theorem merge_filters_order_not_first_seen :
    (cs "subject_id" ++ cs "__in",
      FVal.multi [cs "bob", cs "jane", cs "john"])
      ∈ merge_scope_filters List.reverse
        [⟨cs "1", wsEx, .user, cs "john", some (cs "ai"), none, none⟩,
         ⟨cs "1", wsEx, .user, cs "jane", some (cs "ai"), none, none⟩,
         ⟨cs "1", wsEx, .user, cs "bob", some (cs "research"), none, none⟩]
    ∧ (List.reverse (collectVals (cs "subject_id")
        [⟨cs "1", wsEx, .user, cs "john", some (cs "ai"), none, none⟩,
         ⟨cs "1", wsEx, .user, cs "jane", some (cs "ai"), none, none⟩,
         ⟨cs "1", wsEx, .user, cs "bob", some (cs "research"), none, none⟩])).Perm
        (collectVals (cs "subject_id")
          [⟨cs "1", wsEx, .user, cs "john", some (cs "ai"), none, none⟩,
           ⟨cs "1", wsEx, .user, cs "jane", some (cs "ai"), none, none⟩,
           ⟨cs "1", wsEx, .user, cs "bob", some (cs "research"), none, none⟩])
    ∧ [cs "bob", cs "jane", cs "john"] ≠ [cs "john", cs "jane", cs "bob"] := by
  exact ⟨by decide, List.reverse_perm _, by decide⟩

/-- C4 amended: for two or more scopes and any admissible set-enumeration
order (one that permutes the collected distinct values, as CPython's
unspecified set iteration does), `merge_scope_filters` emits, for each
field collecting exactly one distinct value across the inputs,
`field: value`, and for each field collecting more than one,
`field__in: [values]` where the value list enumerates each distinct
collected value exactly once — in the enumeration's order, with first-seen
order NOT guaranteed. -/
theorem merge_scope_filters_spec
    (setOrder : List (List Char) → List (List Char))
    (scopes : List SRNComponents) (h2 : 2 ≤ scopes.length)
    (field : List Char) (hf : field ∈ mergeFields)
    (hord : (setOrder (collectVals field scopes)).Perm
      (collectVals field scopes)) :
    (∀ v, collectVals field scopes = [v] →
      (field, FVal.single v) ∈ merge_scope_filters setOrder scopes)
    ∧ (2 ≤ (collectVals field scopes).length →
      (field ++ cs "__in", FVal.multi (setOrder (collectVals field scopes)))
        ∈ merge_scope_filters setOrder scopes
      ∧ (setOrder (collectVals field scopes)).Nodup
      ∧ (∀ v, v ∈ setOrder (collectVals field scopes)
          ↔ v ∈ collectVals field scopes)) := by
  match scopes, h2 with
  | s1 :: s2 :: rest, _ =>
    rw [merge_scope_filters_eq]
    constructor
    · intro v hv
      have hone : setOrder (collectVals field (s1 :: s2 :: rest)) = [v] := by
        rw [hv]
        rw [hv] at hord
        exact List.perm_singleton.mp hord
      refine List.mem_flatten.mpr ⟨mergeEntry setOrder (s1 :: s2 :: rest) field,
        List.mem_map_of_mem _ hf, ?_⟩
      simp [mergeEntry, hone]
    · intro hlen
      have hlen2 : 2 ≤ (setOrder (collectVals field (s1 :: s2 :: rest))).length := by
        rw [hord.length_eq]
        exact hlen
      have hne : (setOrder (collectVals field (s1 :: s2 :: rest))).isEmpty = false := by
        cases hcv : setOrder (collectVals field (s1 :: s2 :: rest)) with
        | nil => rw [hcv] at hlen2; simp at hlen2
        | cons a l => simp
      have hlen1 : (setOrder (collectVals field (s1 :: s2 :: rest))).length ≠ 1 := by
        omega
      refine ⟨List.mem_flatten.mpr ⟨mergeEntry setOrder (s1 :: s2 :: rest) field,
        List.mem_map_of_mem _ hf, ?_⟩, ?_, fun v => hord.mem_iff⟩
      · simp [mergeEntry, hne, hlen1]
      · exact (List.Perm.nodup_iff hord).mpr (collectVals_nodup _ _)

/-- Witness for C4's amended theorem at the spec's example, under the
identity enumeration: three scopes with subject ids john, jane, bob
produce a `subject_id__in` entry listing exactly those three values. -/
theorem merge_scope_filters_spec_witness :
    (cs "subject_id" ++ cs "__in",
      FVal.multi [cs "john", cs "jane", cs "bob"])
      ∈ merge_scope_filters id
        [⟨cs "1", wsEx, .user, cs "john", some (cs "ai"), none, none⟩,
         ⟨cs "1", wsEx, .user, cs "jane", some (cs "ai"), none, none⟩,
         ⟨cs "1", wsEx, .user, cs "bob", some (cs "research"), none, none⟩] := by
  have h := (merge_scope_filters_spec id
    [⟨cs "1", wsEx, .user, cs "john", some (cs "ai"), none, none⟩,
     ⟨cs "1", wsEx, .user, cs "jane", some (cs "ai"), none, none⟩,
     ⟨cs "1", wsEx, .user, cs "bob", some (cs "research"), none, none⟩]
    (by decide) (cs "subject_id") (by decide) (List.Perm.refl _)).2 (by decide)
  have hcv : id (collectVals (cs "subject_id")
      [⟨cs "1", wsEx, .user, cs "john", some (cs "ai"), none, none⟩,
       ⟨cs "1", wsEx, .user, cs "jane", some (cs "ai"), none, none⟩,
       ⟨cs "1", wsEx, .user, cs "bob", some (cs "research"), none, none⟩])
      = [cs "john", cs "jane", cs "bob"] := by decide
  rw [hcv] at h
  exact h.1

theorem tlookup_tinsert_self (mid : List Char) (v : MigrationStatus)
    (table : MTable) : tlookup mid (tinsert mid v table) = some v := by
  induction table with
  | nil => simp [tinsert, tlookup]
  | cons kv rest ih =>
    by_cases h : kv.1 = mid <;> simp [tinsert, tlookup, h, ih]

theorem tlookup_tinsert_ne (k mid : List Char) (v : MigrationStatus)
    (table : MTable) (h : k ≠ mid) :
    tlookup k (tinsert mid v table) = tlookup k table := by
  induction table with
  | nil => simp [tinsert, tlookup, Ne.symm h]
  | cons kv rest ih =>
    by_cases h2 : kv.1 = mid
    · simp [tinsert, tlookup, h2, ih, Ne.symm h]
    · by_cases h3 : kv.1 = k <;> simp [tinsert, tlookup, h2, h3, ih, h]

theorem perform_migration_succeeds (fs : FS) (ws : List Char) :
    (perform_migration fs ws).1 = true := by
  unfold perform_migration
  cases h : lookupDir ws fs.dirs <;> simp

/-- The list of `status` transitions a migration record can make in the
source: the claim's four edges plus the `pending → failed` edge taken when
validation fails (or an exception is hit) before the record ever reaches
`running`. -/
def migrationEdges : List (MStatus × MStatus) :=
  [(.pending, .running), (.pending, .failed), (.running, .completed),
   (.running, .failed), (.completed, .rolled_back)]

/-- The edge set named by the claim (spec wording), for comparison:
`pending → running`, `running → completed`, `running → failed`,
`completed → rolled_back` — no `pending → failed`. -/
def specClaimedEdges : List (MStatus × MStatus) :=
  [(.pending, .running), (.running, .completed),
   (.running, .failed), (.completed, .rolled_back)]

/-- C5 counterexample: migrating a workspace that does not exist fails
validation, and the status record goes `pending → failed` directly — a
transition outside the claim's edge set, reached without ever being in
`running`. -/
theorem migration_fails_from_pending_without_running :
    (migrate_workspace_to_scope ⟨[], []⟩ [] (cs "missing")
        ⟨cs "1", wsEx, .user, cs "john", none, none, none⟩ true (cs "mig-1")).2.2.2
      = [.pending, .failed]
    ∧ ¬ List.Chain' (fun a b => (a, b) ∈ specClaimedEdges)
        [MStatus.pending, MStatus.failed] := by
  exact ⟨rfl, by simp [List.chain'_cons, specClaimedEdges]⟩

theorem migrate_table_shape (fs : FS) (table : MTable) (ws : List Char)
    (target : SRNComponents) (dry : Bool) (mid : List Char) :
    ∃ st, (migrate_workspace_to_scope fs table ws target dry mid).2.1
      = tinsert mid st table := by
  unfold migrate_workspace_to_scope
  by_cases hv : (validate_migration fs ws target).isEmpty
  · by_cases hd : dry
    · simp only [hv, hd]
      exact ⟨_, rfl⟩
    · simp only [hv, hd]
      by_cases hp : (perform_migration fs ws).1
      · simp only [hp]
        exact ⟨_, rfl⟩
      · simp only [hp]
        exact ⟨_, rfl⟩
  · simp only [hv]
    exact ⟨_, rfl⟩

/-- C5 amended: a migration status record moves only along
`pending → running`, `pending → failed` (validation failure before the
record ever runs), `running → completed`, `running → failed`, and — via
`rollback_migration`, only from `completed` — `completed → rolled_back`; no
state is left by any other transition, and a migration run touches no other
record of the status table. -/
theorem migration_status_transitions (fs : FS) (table : MTable)
    (ws : List Char) (target : SRNComponents) (dry : Bool) (mid : List Char) :
    List.Chain' (fun a b => (a, b) ∈ migrationEdges)
      (migrate_workspace_to_scope fs table ws target dry mid).2.2.2
    ∧ (∀ k : List Char, k ≠ mid →
        tlookup k (migrate_workspace_to_scope fs table ws target dry mid).2.1
          = tlookup k table)
    ∧ (∀ (table2 : MTable) (mid2 : List Char) (st st' : MigrationStatus),
        tlookup mid2 table2 = some st →
        tlookup mid2 (rollback_migration table2 mid2).1 = some st' →
        st' = st ∨ (st.status = .completed
          ∧ st' = { st with status := .rolled_back })) := by
  refine ⟨?_, ?_, ?_⟩
  · unfold migrate_workspace_to_scope
    by_cases hv : (validate_migration fs ws target).isEmpty
    · by_cases hd : dry
      · simp only [hv, hd]
        simp [List.chain'_cons, migrationEdges]
      · simp only [hv, hd]
        by_cases hp : (perform_migration fs ws).1
        · simp only [hp]
          simp [List.chain'_cons, migrationEdges]
        · simp only [hp]
          simp [List.chain'_cons, migrationEdges]
    · simp only [hv]
      simp [List.chain'_cons, migrationEdges]
  · intro k hk
    obtain ⟨st, hst⟩ := migrate_table_shape fs table ws target dry mid
    rw [hst]
    exact tlookup_tinsert_ne k mid st table hk
  · intro table2 mid2 st st' h1 h2
    unfold rollback_migration at h2
    rw [h1] at h2
    by_cases hc : st.status = .completed
    · simp only [hc, ne_eq, not_true_eq_false, if_false] at h2
      rw [tlookup_tinsert_self] at h2
      cases h2
      exact Or.inr ⟨hc, rfl⟩
    · simp only [ne_eq, hc, not_false_eq_true, if_true] at h2
      rw [h1] at h2
      cases h2
      exact Or.inl rfl

/-- A concrete `completed` migration record for the C5 witness. -/
def stCompletedEx : MigrationStatus :=
  { migration_id := cs "m0", source_workspace := cs "ws1",
    target_scope := cs "t", status := .completed }

/-- Witness for C5's amended theorem: a dry run on an existing workspace
(trace `pending, running, completed`), an untouched foreign key, and a
rollback step from a `completed` record. -/
theorem migration_status_transitions_witness :
    List.Chain' (fun a b => (a, b) ∈ migrationEdges)
      (migrate_workspace_to_scope
        ⟨[(cs "ws1", [⟨cs "kv_store_main.json", 100, some 3⟩])], []⟩ []
        (cs "ws1") ⟨cs "1", wsEx, .user, cs "john", none, none, none⟩
        true (cs "mig-1")).2.2.2
    ∧ tlookup (cs "other")
        (migrate_workspace_to_scope
          ⟨[(cs "ws1", [⟨cs "kv_store_main.json", 100, some 3⟩])], []⟩ []
          (cs "ws1") ⟨cs "1", wsEx, .user, cs "john", none, none, none⟩
          true (cs "mig-1")).2.1
      = tlookup (cs "other") ([] : MTable)
    ∧ ({ stCompletedEx with status := .rolled_back } = stCompletedEx
      ∨ (stCompletedEx.status = .completed
        ∧ ({ stCompletedEx with status := .rolled_back } : MigrationStatus)
          = { stCompletedEx with status := .rolled_back })) := by
  have h := migration_status_transitions
    ⟨[(cs "ws1", [⟨cs "kv_store_main.json", 100, some 3⟩])], []⟩ []
    (cs "ws1") ⟨cs "1", wsEx, .user, cs "john", none, none, none⟩
    true (cs "mig-1")
  refine ⟨h.1, h.2.1 (cs "other") (by decide), ?_⟩
  exact h.2.2 [(cs "m0", stCompletedEx)] (cs "m0") stCompletedEx
    { stCompletedEx with status := .rolled_back } (by rfl) (by rfl)

/-- C9: for an existing legacy workspace (which is exactly what passing
validation requires), a dry-run migration leaves the modelled filesystem
untouched, returns the dry-run `completed` result built from the plan, and
records a `completed` status whose `items_migrated` equals its
`total_items`, both computed from the plan (`planTotalItems`). -/
theorem dry_run_completes_without_storage_writes (fs : FS) (table : MTable)
    (ws : List Char) (target : SRNComponents) (mid : List Char)
    (d : List FileInfo) (h : lookupDir ws fs.dirs = some d) :
    (migrate_workspace_to_scope fs table ws target true mid).1 = fs
    ∧ (migrate_workspace_to_scope fs table ws target true mid).2.2.1
      = .dryRun mid .completed (create_migration_plan fs ws target).storage_types
          (create_migration_plan fs ws target).estimated_items
    ∧ tlookup mid (migrate_workspace_to_scope fs table ws target true mid).2.1
      = some { migration_id := mid, source_workspace := ws,
               target_scope := to_string target, status := .completed,
               items_migrated := planTotalItems fs ws target,
               total_items := planTotalItems fs ws target } := by
  have hv : validate_migration fs ws target = [] := by
    simp [validate_migration, create_migration_plan, analyze_workspace, h]
  unfold migrate_workspace_to_scope
  rw [hv]
  refine ⟨rfl, rfl, ?_⟩
  rw [show planTotalItems fs ws target
    = ((create_migration_plan fs ws target).estimated_items.map Prod.snd).sum
    from rfl]
  exact tlookup_tinsert_self _ _ _

/-- Witness for C9: a concrete workspace directory with one kv-store file of
3 items; the dry run completes with `items_migrated = total_items = 3` and
the filesystem value unchanged. -/
theorem dry_run_completes_without_storage_writes_witness :
    (migrate_workspace_to_scope
        ⟨[(cs "ws1", [⟨cs "kv_store_main.json", 100, some 3⟩])], []⟩ []
        (cs "ws1") ⟨cs "1", wsEx, .user, cs "john", none, none, none⟩
        true (cs "m1")).1
      = ⟨[(cs "ws1", [⟨cs "kv_store_main.json", 100, some 3⟩])], []⟩
    ∧ (migrate_workspace_to_scope
        ⟨[(cs "ws1", [⟨cs "kv_store_main.json", 100, some 3⟩])], []⟩ []
        (cs "ws1") ⟨cs "1", wsEx, .user, cs "john", none, none, none⟩
        true (cs "m1")).2.2.1
      = .dryRun (cs "m1") .completed [cs "kv_store"] [(cs "kv_store", 3)]
    ∧ tlookup (cs "m1")
        (migrate_workspace_to_scope
          ⟨[(cs "ws1", [⟨cs "kv_store_main.json", 100, some 3⟩])], []⟩ []
          (cs "ws1") ⟨cs "1", wsEx, .user, cs "john", none, none, none⟩
          true (cs "m1")).2.1
      = some { migration_id := cs "m1", source_workspace := cs "ws1",
               target_scope := to_string ⟨cs "1", wsEx, .user, cs "john",
                 none, none, none⟩,
               status := .completed, items_migrated := 3, total_items := 3 } := by
  have h := dry_run_completes_without_storage_writes
    ⟨[(cs "ws1", [⟨cs "kv_store_main.json", 100, some 3⟩])], []⟩ []
    (cs "ws1") ⟨cs "1", wsEx, .user, cs "john", none, none, none⟩
    (cs "m1") [⟨cs "kv_store_main.json", 100, some 3⟩] (by rfl)
  refine ⟨h.1, ?_, ?_⟩
  · rw [h.2.1]
    rfl
  · rw [h.2.2]
    rfl

/-- C10: rolling back a migration id that is not in the status table
returns the "not found" error result and leaves the table exactly as it
was. -/
theorem rollback_unknown_id_error (table : MTable) (mid : List Char)
    (h : tlookup mid table = none) :
    rollback_migration table mid = (table, .errorNotFound) := by
  unfold rollback_migration
  rw [h]

/-- Witness for C10 at an empty status table. -/
theorem rollback_unknown_id_error_witness :
    rollback_migration ([] : MTable) (cs "missing")
      = (([] : MTable), .errorNotFound) :=
  rollback_unknown_id_error ([] : MTable) (cs "missing") (by rfl)

/-- Witness for C6's amended theorem at a concrete project-level scope. -/
theorem to_filter_dict_exact_fields_witness :
    (to_filter_dict ⟨cs "1", wsEx, .user, cs "johndoe",
        some (cs "ai"), none, none⟩).map Prod.fst
      = [cs "workspace", cs "subject_type", cs "subject_id", cs "project"]
    ∧ dictLookup (cs "version") (to_filter_dict ⟨cs "1", wsEx, .user,
        cs "johndoe", some (cs "ai"), none, none⟩) = none
    ∧ dictLookup (cs "workspace") (to_filter_dict ⟨cs "1", wsEx, .user,
        cs "johndoe", some (cs "ai"), none, none⟩) = some wsEx
    ∧ dictLookup (cs "subject_type") (to_filter_dict ⟨cs "1", wsEx, .user,
        cs "johndoe", some (cs "ai"), none, none⟩) = some (cs "user")
    ∧ dictLookup (cs "subject_id") (to_filter_dict ⟨cs "1", wsEx, .user,
        cs "johndoe", some (cs "ai"), none, none⟩) = some (cs "johndoe")
    ∧ dictLookup (cs "project") (to_filter_dict ⟨cs "1", wsEx, .user,
        cs "johndoe", some (cs "ai"), none, none⟩) = some (cs "ai")
    ∧ dictLookup (cs "thread") (to_filter_dict ⟨cs "1", wsEx, .user,
        cs "johndoe", some (cs "ai"), none, none⟩) = none
    ∧ dictLookup (cs "topic") (to_filter_dict ⟨cs "1", wsEx, .user,
        cs "johndoe", some (cs "ai"), none, none⟩) = none :=
  to_filter_dict_exact_fields
    ⟨cs "1", wsEx, .user, cs "johndoe", some (cs "ai"), none, none⟩
